import Mathlib

/-!
Verification of the StellarLend AMM liquidation-swap subsystem and the
lending-contract entry points, against the repository's specification.

The repository snapshot contains the AMM contract's test suite
(`contracts/amm/src/liquidate_test.rs`) and the lending contract's entry
points (`contracts/hello-world/src/lib.rs`).  The AMM contract body itself
(`crate::amm`) is not in the snapshot, so its operations are modelled from
the specification (each such definition says so in its doc comment); the
data-structure field names follow the test suite, which constructs the
records directly.  Addresses and symbols are modelled as `Nat` / `String`;
`i128` amounts are modelled as `Int` (the spec requires the arithmetic to
be performed at a width that cannot overflow); `u64` timestamps and nonces
are `Nat`.
-/

/-- Settings record, fields as constructed in `liquidate_test.rs`
(`AmmSettings { default_slippage, max_slippage, swap_enabled,
liquidity_enabled, auto_swap_threshold }`). -/
structure AmmSettings where
  default_slippage : Int
  max_slippage : Int
  swap_enabled : Bool
  liquidity_enabled : Bool
  auto_swap_threshold : Int
deriving DecidableEq, Repr

/-- Token pair, fields as constructed in `liquidate_test.rs`
(`TokenPair { token_a, token_b, pool_address }`); `none` is the native
asset sentinel. -/
structure TokenPair where
  token_a : Option Nat
  token_b : Option Nat
  pool_address : Nat
deriving DecidableEq, Repr

/-- Protocol registry entry, fields as constructed in `liquidate_test.rs`
(`AmmProtocolConfig { protocol_address, protocol_name, enabled, fee_tier,
min_swap_amount, max_swap_amount, supported_pairs }`). -/
structure AmmProtocolConfig where
  protocol_address : Nat
  protocol_name : String
  enabled : Bool
  fee_tier : Int
  min_swap_amount : Int
  max_swap_amount : Int
  supported_pairs : List TokenPair
deriving DecidableEq, Repr

/-- Swap request, fields as constructed in `liquidate_test.rs`
(`SwapParams { protocol, token_in, token_out, amount_in, min_amount_out,
slippage_tolerance, deadline }`). -/
structure SwapParams where
  protocol : Nat
  token_in : Option Nat
  token_out : Option Nat
  amount_in : Int
  min_amount_out : Int
  slippage_tolerance : Int
  deadline : Nat
deriving DecidableEq, Repr

/-- History entry, fields from the spec's data model (`SwapRecord`:
user, protocol, amount_in, amount_out, timestamp, sequence_id); the test
suite reads `amount_in` off the queried records. -/
structure SwapRecord where
  user : Nat
  protocol : Nat
  amount_in : Int
  amount_out : Int
  timestamp : Nat
  sequence_id : Nat
deriving DecidableEq, Repr

/-- Callback payload, fields as constructed in `liquidate_test.rs`
(`AmmCallbackData { nonce, operation, user, expected_amounts, deadline }`). -/
structure AmmCallbackData where
  nonce : Nat
  operation : String
  user : Nat
  expected_amounts : List Int
  deadline : Nat
deriving DecidableEq, Repr

/-- Error taxonomy of the spec (section 7). -/
inductive AmmError where
  | AlreadyInitialized
  | Unauthorized
  | InvalidParameter
  | SwapsPaused
  | ProtocolUnavailable
  | DeadlineExpired
  | AmountOutOfBounds
  | UnsupportedPair
  | SlippageTooHigh
  | InsufficientOutput
  | InvalidAmount
  | BelowLiquidationThreshold
  | NoProtocolAvailable
  | UnknownProtocol
  | NonceReplay
deriving DecidableEq, Repr

/-- Modelled from the spec: the AMM contract's persistent state after
initialization — admin identity, the singleton `AmmSettings`, the protocol
registry in registration order, the append-only history, and the
per-protocol nonce ledger (most recent entry first). -/
structure AmmState where
  admin : Nat
  settings : AmmSettings
  protocols : List AmmProtocolConfig
  history : List SwapRecord
  nonces : List (Nat × Nat)
deriving DecidableEq, Repr

/-- Modelled from the spec: registry lookup by protocol address
(`lookup(address) -> Option<AmmProtocolConfig>`). -/
def find_protocol (st : AmmState) (addr : Nat) : Option AmmProtocolConfig :=
  st.protocols.find? (fun c => c.protocol_address == addr)

/-- Modelled from the spec: a pair matches a requested
`(token_in, token_out)` only on exact identity equality, including the
native sentinel.  Per the test suite's construction, `token_a` is the
input side and `token_b` the output side. -/
def pair_supported (cfg : AmmProtocolConfig) (ti tout : Option Nat) : Bool :=
  cfg.supported_pairs.any (fun pr => pr.token_a == ti && pr.token_b == tout)

/-- Modelled from the spec: `find_supporting(token_in, token_out)` scans
registered protocols in registration order and returns the first enabled
one whose supported pairs contain a matching pair. -/
def find_supporting (st : AmmState) (ti tout : Option Nat) : Option AmmProtocolConfig :=
  st.protocols.find? (fun c => c.enabled && pair_supported c ti tout)

/-- Modelled from the spec: step 7 of the router,
`amount_out = floor(amount_in * (10000 - slippage_tolerance_bps) / 10000)`
in exact integer arithmetic (Lean `Int` division is floor division for a
positive divisor). -/
def amount_out_formula (p : SwapParams) : Int :=
  p.amount_in * (10000 - p.slippage_tolerance) / 10000

/-- Modelled from the spec: the pure validation checks 2–8 of the router
(`execute_swap`), in the spec's strict order, returning the first failing
check's error, or `none` when all pass.  Check 1 (`swap_enabled`) and the
registry lookup for check 2 are performed by `execute_swap` itself. -/
def swap_check (st : AmmState) (cfg : AmmProtocolConfig) (p : SwapParams) (now : Nat) : Option AmmError :=
  if cfg.enabled ≠ true then some .ProtocolUnavailable
  else if p.deadline < now then some .DeadlineExpired
  else if p.amount_in < cfg.min_swap_amount ∨ cfg.max_swap_amount < p.amount_in then some .AmountOutOfBounds
  else if pair_supported cfg p.token_in p.token_out ≠ true then some .UnsupportedPair
  else if st.settings.max_slippage < p.slippage_tolerance then some .SlippageTooHigh
  else if amount_out_formula p < p.min_amount_out then some .InsufficientOutput
  else none

/-- Modelled from the spec: the history record appended in step 9 —
user, protocol, input and output amounts, current time, and the next
monotonically increasing sequence id. -/
def mk_swap_record (user : Nat) (p : SwapParams) (now : Nat) (seq : Nat) : SwapRecord :=
  { user := user, protocol := p.protocol, amount_in := p.amount_in,
    amount_out := amount_out_formula p, timestamp := now, sequence_id := seq }

/-- Modelled from the spec: the swap router `execute_swap` (section 4.3),
a strictly ordered state machine — checks 1–8 are pure reads and only the
final step appends the history record and returns `amount_out`. -/
def execute_swap (st : AmmState) (user : Nat) (p : SwapParams) (now : Nat) :
    Except AmmError (Int × AmmState) :=
  if st.settings.swap_enabled = true then
    match find_protocol st p.protocol with
    | some cfg =>
      match swap_check st cfg p now with
      | some e => .error e
      | none =>
        .ok (amount_out_formula p,
          { st with history := st.history ++ [mk_swap_record user p now st.history.length] })
    | none => .error .ProtocolUnavailable
  else .error .SwapsPaused

/-- Modelled from the spec: the fixed forward-looking deadline window the
liquidation entry point passes to the router (an arbitrary positive
window; the tests use an hour). -/
def swap_deadline_window : Nat := 3600

/-- Modelled from the spec: the parameters the liquidation entry point
delegates to the router — native input asset, the resolved protocol,
default slippage, permissive `min_amount_out = 1`, fixed deadline window. -/
def auto_swap_params (cfg : AmmProtocolConfig) (tout : Option Nat) (amount : Int)
    (st : AmmState) (now : Nat) : SwapParams :=
  { protocol := cfg.protocol_address, token_in := none, token_out := tout,
    amount_in := amount, min_amount_out := 1,
    slippage_tolerance := st.settings.default_slippage,
    deadline := now + swap_deadline_window }

/-- Modelled from the spec: the liquidation entry point
`auto_swap_for_collateral` (section 4.4) — requires `amount > 0`, then
`amount >= auto_swap_threshold`, resolves a protocol supporting
`(native, token_out)`, and delegates to the router. -/
def auto_swap_for_collateral (st : AmmState) (caller : Nat) (tout : Option Nat)
    (amount : Int) (now : Nat) : Except AmmError (Int × AmmState) :=
  if amount ≤ 0 then .error .InvalidAmount
  else if amount < st.settings.auto_swap_threshold then .error .BelowLiquidationThreshold
  else
    match find_supporting st none tout with
    | none => .error .NoProtocolAvailable
    | some cfg => execute_swap st caller (auto_swap_params cfg tout amount st now) now

/-- Modelled from the spec: the protocol's last-consumed nonce in the
Nonce Ledger (0 before any callback is consumed). -/
def last_nonce (st : AmmState) (protocol : Nat) : Nat :=
  match st.nonces.find? (fun q => q.1 == protocol) with
  | some q => q.2
  | none => 0

/-- Modelled from the spec: the callback validator `validate_amm_callback`
(section 4.5) — protocol must be registered (`UnknownProtocol`), deadline
not expired (`DeadlineExpired`), nonce strictly greater than the
last-consumed nonce (`NonceReplay`); on success the ledger is advanced
atomically. -/
def validate_amm_callback (st : AmmState) (protocol : Nat) (cb : AmmCallbackData)
    (now : Nat) : Except AmmError AmmState :=
  match find_protocol st protocol with
  | none => .error .UnknownProtocol
  | some _ =>
    if cb.deadline < now then .error .DeadlineExpired
    else if cb.nonce ≤ last_nonce st protocol then .error .NonceReplay
    else .ok { st with nonces := (protocol, cb.nonce) :: st.nonces }

/-- Modelled from the spec: `update(admin, new_settings)` of the Settings
Store (section 4.1) — the caller must equal the stored admin identity,
else `Unauthorized`; on success the whole record is replaced atomically. -/
def update_amm_settings (st : AmmState) (caller : Nat) (ns : AmmSettings) :
    Except AmmError AmmState :=
  if caller = st.admin then .ok { st with settings := ns }
  else .error .Unauthorized

/-- Modelled from the spec: `get() -> AmmSettings` of the Settings Store. -/
def get_amm_settings (st : AmmState) : AmmSettings :=
  st.settings

/-- Modelled from the spec: the history query (section 4.6) — when a user
is given, only that user's records, in insertion order, truncated to
`limit`. -/
def get_swap_history (st : AmmState) (user : Option Nat) (limit : Nat) : List SwapRecord :=
  match user with
  | some u => (st.history.filter (fun r => r.user == u)).take limit
  | none => st.history.take limit

/-- Post-state of an `execute_swap` call: on any error the transaction
leaves the state exactly as it was. -/
def run_execute_swap (st : AmmState) (user : Nat) (p : SwapParams) (now : Nat) : AmmState :=
  match execute_swap st user p now with
  | .ok x => x.2
  | .error _ => st

/-- Post-state of an `auto_swap_for_collateral` call. -/
def run_auto_swap (st : AmmState) (caller : Nat) (tout : Option Nat) (amount : Int)
    (now : Nat) : AmmState :=
  match auto_swap_for_collateral st caller tout amount now with
  | .ok x => x.2
  | .error _ => st

/-- Post-state of a `validate_amm_callback` call. -/
def run_validate_callback (st : AmmState) (protocol : Nat) (cb : AmmCallbackData)
    (now : Nat) : AmmState :=
  match validate_amm_callback st protocol cb now with
  | .ok s => s
  | .error _ => st

/-- Post-state of an `update_amm_settings` call. -/
def run_update_settings (st : AmmState) (caller : Nat) (ns : AmmSettings) : AmmState :=
  match update_amm_settings st caller ns with
  | .ok s => s
  | .error _ => st

/-- A single external call into the AMM contract, for reasoning about
traces of calls. -/
inductive AmmOp where
  | swap (user : Nat) (p : SwapParams) (now : Nat)
  | auto (caller : Nat) (tout : Option Nat) (amount : Int) (now : Nat)
  | callback (protocol : Nat) (cb : AmmCallbackData) (now : Nat)
  | update (caller : Nat) (ns : AmmSettings)

/-- State transition of one external call (failed calls leave the state
unchanged). -/
def applyOp (st : AmmState) : AmmOp → AmmState
  | .swap user p now => run_execute_swap st user p now
  | .auto caller tout amount now => run_auto_swap st caller tout amount now
  | .callback protocol cb now => run_validate_callback st protocol cb now
  | .update caller ns => run_update_settings st caller ns

/-- State after a sequence of external calls. -/
def applyOps (st : AmmState) (ops : List AmmOp) : AmmState :=
  ops.foldl applyOp st

/-- Concrete protocol used by witnesses: the test suite's standard
liquidation protocol — enabled, fee tier 30, swap bounds
`[1000, 1000000000]`, supporting the pair (native, token 7). -/
def testConfig : AmmProtocolConfig :=
  { protocol_address := 5, protocol_name := "LiquidationAMM",
    enabled := true, fee_tier := 30,
    min_swap_amount := 1000, max_swap_amount := 1000000000,
    supported_pairs := [{ token_a := none, token_b := some 7,
                          pool_address := 3 }] }

/-- Concrete state used by witnesses: the test-suite environment —
settings `(default 100, max 1000, threshold 10000)` and the single
registered `testConfig` protocol. -/
def testState : AmmState :=
  { admin := 1,
    settings := { default_slippage := 100, max_slippage := 1000,
                  swap_enabled := true, liquidity_enabled := true,
                  auto_swap_threshold := 10000 },
    protocols := [testConfig],
    history := [],
    nonces := [] }

/-- Concrete parameters used by several witnesses: the test suite's
standard direct swap (amount 15000, slippage 100 bps). -/
def testParams : SwapParams :=
  { protocol := 5, token_in := none, token_out := some 7, amount_in := 15000,
    min_amount_out := 1, slippage_tolerance := 100, deadline := 100 }

/-- High-slippage variant of `testParams` (slippage 1000 bps = the
configured maximum). -/
def testParamsHigh : SwapParams :=
  { testParams with slippage_tolerance := 1000 }

/-- State with swaps paused, used to exhibit a failing call. -/
def pausedState : AmmState :=
  { testState with settings := { testState.settings with swap_enabled := false } }

/-- Concrete callback used by witnesses (nonce 1). -/
def testCallback : AmmCallbackData :=
  { nonce := 1, operation := "swap", user := 9, expected_amounts := [], deadline := 100 }

/-- Variant of `testParams` with slippage one above the configured
maximum of 1000 bps. -/
def testParamsOver : SwapParams :=
  { testParams with slippage_tolerance := 1001 }

/-- Settings used by the C5 witness: threshold lowered to 5000 (the test
suite's settings-update scenario). -/
def loweredSettings : AmmSettings :=
  { testState.settings with auto_swap_threshold := 5000 }

/-- Second swap request used by the C7 witness (amount 20000 by user 8). -/
def testParamsB : SwapParams :=
  { testParams with amount_in := 20000 }

/-- Result of a Soroban contract entry point as seen by the caller: either
a returned value or a trap (Rust panic) carrying the panic message. -/
inductive ContractOutcome (α : Type) where
  | ret (a : α)
  | panicked (msg : String)
deriving DecidableEq, Repr

/-- Embedding of Rust `Result::expect(msg)`: the value on `Ok`, a panic
with `msg` on `Err`. -/
def expectOk (msg : String) : Except ε α → ContractOutcome α
  | .ok a => .ret a
  | .error _ => .panicked msg

/-- Embedding of Rust `Result::unwrap_or(d)`: the value on `Ok`, the
default `d` on `Err`. -/
def unwrap_or (d : α) : Except ε α → α
  | .ok a => a
  | .error _ => d

namespace HelloContract

/-- Embedding of `HelloContract::liquidate` (`hello-world/src/lib.rs`):
the internal `liquidate::liquidate` module is not in the snapshot, so its
result is taken as a parameter; the entry point applies
`.expect("Liquidation error")` to it, so its return type has no error
variant. -/
def liquidate (inner : Except ε (Int × Int × Int)) : ContractOutcome (Int × Int × Int) :=
  expectOk "Liquidation error" inner

/-- Embedding of `HelloContract::deposit_collateral`
(`hello-world/src/lib.rs`): the entry point forwards the internal
module's `Result` unchanged to the caller. -/
def deposit_collateral (inner : Except ε Int) : Except ε Int :=
  inner

/-- Embedding of `HelloContract::get_borrow_rate`
(`hello-world/src/lib.rs`): `calculate_borrow_rate(env).unwrap_or(0)`,
with the internal computation's result taken as a parameter. -/
def get_borrow_rate (inner : Except ε Int) : Int :=
  unwrap_or 0 inner

/-- Embedding of `HelloContract::get_supply_rate`
(`hello-world/src/lib.rs`): `calculate_supply_rate(env).unwrap_or(0)`. -/
def get_supply_rate (inner : Except ε Int) : Int :=
  unwrap_or 0 inner

/-- Embedding of `HelloContract::get_utilization`
(`hello-world/src/lib.rs`): `calculate_utilization(env).unwrap_or(0)`. -/
def get_utilization (inner : Except ε Int) : Int :=
  unwrap_or 0 inner

end HelloContract

example :
    (execute_swap testState 9
      { protocol := 5, token_in := none, token_out := some 7, amount_in := 15000,
        min_amount_out := 1, slippage_tolerance := 100, deadline := 100 } 0).map Prod.fst
    = .ok 14850 := rfl

example :
    (auto_swap_for_collateral testState 9 (some 7) 15000 0).map Prod.fst = .ok 14850 := rfl

example :
    auto_swap_for_collateral testState 9 (some 7) 5000 0 = .error .BelowLiquidationThreshold := rfl

/-! Helper lemmas characterizing the operations. -/

/-- Checks 2–8 all pass exactly when no check reports an error. -/
lemma swap_check_none_iff (st : AmmState) (cfg : AmmProtocolConfig) (p : SwapParams) (now : Nat) :
    swap_check st cfg p now = none ↔
      cfg.enabled = true ∧ now ≤ p.deadline ∧ cfg.min_swap_amount ≤ p.amount_in ∧
      p.amount_in ≤ cfg.max_swap_amount ∧ pair_supported cfg p.token_in p.token_out = true ∧
      p.slippage_tolerance ≤ st.settings.max_slippage ∧ p.min_amount_out ≤ amount_out_formula p := by
  unfold swap_check
  split_ifs with h1 h2 h3 h4 h5 h6 <;> simp_all
  all_goals omega

/-- Full characterization of a successful `execute_swap`. -/
lemma execute_swap_ok_iff (st : AmmState) (user : Nat) (p : SwapParams) (now : Nat)
    (out : Int) (st' : AmmState) :
    execute_swap st user p now = .ok (out, st') ↔
      st.settings.swap_enabled = true ∧
      ∃ cfg, find_protocol st p.protocol = some cfg ∧ swap_check st cfg p now = none ∧
        out = amount_out_formula p ∧
        st' = { st with history := st.history ++ [mk_swap_record user p now st.history.length] } := by
  unfold execute_swap
  split_ifs with h1
  · cases hfp : find_protocol st p.protocol with
    | none => simp [h1]
    | some cfg =>
      cases hsc : swap_check st cfg p now with
      | some e => simp [h1, hsc]
      | none => simp [h1, hsc, eq_comm]
  · simp [h1]

/-- A successful swap only appends one history record; settings, registry,
nonce ledger and admin are untouched. -/
lemma execute_swap_ok_state (st : AmmState) (user : Nat) (p : SwapParams) (now : Nat)
    (out : Int) (st' : AmmState) (h : execute_swap st user p now = .ok (out, st')) :
    out = amount_out_formula p ∧
    st'.history = st.history ++ [mk_swap_record user p now st.history.length] ∧
    st'.nonces = st.nonces ∧ st'.settings = st.settings ∧
    st'.protocols = st.protocols ∧ st'.admin = st.admin := by
  obtain ⟨-, cfg, -, -, hout, hst⟩ := (execute_swap_ok_iff st user p now out st').mp h
  subst hst
  exact ⟨hout, rfl, rfl, rfl, rfl, rfl⟩

/-- A successful liquidation call resolves a supporting protocol and is
exactly a router call with the delegated parameters. -/
lemma auto_swap_ok_elim (st : AmmState) (caller : Nat) (tout : Option Nat) (amount : Int)
    (now : Nat) (out : Int) (st' : AmmState)
    (h : auto_swap_for_collateral st caller tout amount now = .ok (out, st')) :
    0 < amount ∧ st.settings.auto_swap_threshold ≤ amount ∧
    ∃ cfg, find_supporting st none tout = some cfg ∧
      execute_swap st caller (auto_swap_params cfg tout amount st now) now = .ok (out, st') := by
  unfold auto_swap_for_collateral at h
  split_ifs at h with h1 h2
  cases hfs : find_supporting st none tout with
  | none => rw [hfs] at h; exact Except.noConfusion h
  | some cfg =>
    rw [hfs] at h
    exact ⟨by omega, by omega, cfg, rfl, h⟩

/-- Full characterization of a successful callback validation. -/
lemma validate_ok_iff (st : AmmState) (protocol : Nat) (cb : AmmCallbackData) (now : Nat)
    (st' : AmmState) :
    validate_amm_callback st protocol cb now = .ok st' ↔
      (find_protocol st protocol).isSome = true ∧ now ≤ cb.deadline ∧
      last_nonce st protocol < cb.nonce ∧
      st' = { st with nonces := (protocol, cb.nonce) :: st.nonces } := by
  cases hfp : find_protocol st protocol with
  | none => simp [validate_amm_callback, hfp]
  | some cfg =>
    simp only [validate_amm_callback, hfp, Option.isSome_some, true_and]
    constructor
    · intro h
      split_ifs at h with h1 h2
      all_goals first
        | exact Except.noConfusion h
        | (injection h with h3; exact ⟨by omega, by omega, h3.symm⟩)
    · rintro ⟨hdl, hlt, rfl⟩
      split_ifs with h1 h2
      all_goals first
        | omega
        | rfl

/-- Full characterization of a successful settings update. -/
lemma update_ok_iff (st : AmmState) (caller : Nat) (ns : AmmSettings) (st' : AmmState) :
    update_amm_settings st caller ns = .ok st' ↔
      caller = st.admin ∧ st' = { st with settings := ns } := by
  unfold update_amm_settings
  split_ifs with h1 <;> simp [h1, eq_comm]

/-- The last-consumed nonce only depends on the nonce ledger. -/
lemma last_nonce_congr (st st' : AmmState) (p : Nat) (h : st'.nonces = st.nonces) :
    last_nonce st' p = last_nonce st p := by
  unfold last_nonce
  rw [h]

/-- Reading the ledger right after it was advanced for the same protocol. -/
lemma last_nonce_cons_same (st : AmmState) (p n : Nat) :
    last_nonce { st with nonces := (p, n) :: st.nonces } p = n := by
  unfold last_nonce
  rw [List.find?_cons_of_pos]
  simp

/-- Advancing the ledger for one protocol leaves every other protocol's
last-consumed nonce unchanged. -/
lemma last_nonce_cons_other (st : AmmState) (p q n : Nat) (h : q ≠ p) :
    last_nonce { st with nonces := (q, n) :: st.nonces } p = last_nonce st p := by
  unfold last_nonce
  rw [List.find?_cons_of_neg]
  simp [h]

/-- A swap call, successful or not, leaves the nonce ledger untouched. -/
lemma run_execute_swap_nonces (st : AmmState) (user : Nat) (p : SwapParams) (now : Nat) :
    (run_execute_swap st user p now).nonces = st.nonces := by
  unfold run_execute_swap
  cases h : execute_swap st user p now with
  | error e => rfl
  | ok x =>
    obtain ⟨out, st'⟩ := x
    exact (execute_swap_ok_state st user p now out st' h).2.2.1

/-- A liquidation call, successful or not, leaves the nonce ledger
untouched. -/
lemma run_auto_swap_nonces (st : AmmState) (caller : Nat) (tout : Option Nat)
    (amount : Int) (now : Nat) :
    (run_auto_swap st caller tout amount now).nonces = st.nonces := by
  unfold run_auto_swap
  cases h : auto_swap_for_collateral st caller tout amount now with
  | error e => rfl
  | ok x =>
    obtain ⟨out, st'⟩ := x
    obtain ⟨-, -, cfg, -, hex⟩ := auto_swap_ok_elim st caller tout amount now out st' h
    exact (execute_swap_ok_state st caller (auto_swap_params cfg tout amount st now)
      now out st' hex).2.2.1

/-- A settings update, successful or not, leaves the nonce ledger
untouched. -/
lemma run_update_settings_nonces (st : AmmState) (caller : Nat) (ns : AmmSettings) :
    (run_update_settings st caller ns).nonces = st.nonces := by
  unfold run_update_settings
  cases h : update_amm_settings st caller ns with
  | error e => rfl
  | ok st' =>
    obtain ⟨-, hst⟩ := (update_ok_iff st caller ns st').mp h
    subst hst
    rfl

/-- A callback validation never decreases any protocol's last-consumed
nonce. -/
lemma run_validate_callback_mono (st : AmmState) (protocol : Nat) (cb : AmmCallbackData)
    (now : Nat) (p : Nat) :
    last_nonce st p ≤ last_nonce (run_validate_callback st protocol cb now) p := by
  unfold run_validate_callback
  cases h : validate_amm_callback st protocol cb now with
  | error e => exact le_refl _
  | ok st' =>
    obtain ⟨-, -, hlt, hst⟩ := (validate_ok_iff st protocol cb now st').mp h
    subst hst
    by_cases hp : p = protocol
    · subst hp
      rw [last_nonce_cons_same]
      omega
    · rw [last_nonce_cons_other st p protocol cb.nonce (fun e => hp e.symm)]

/-- One external call never decreases any protocol's last-consumed nonce. -/
lemma last_nonce_applyOp_mono (st : AmmState) (op : AmmOp) (p : Nat) :
    last_nonce st p ≤ last_nonce (applyOp st op) p := by
  cases op with
  | swap user pp now =>
    simp only [applyOp]
    exact le_of_eq (last_nonce_congr st _ p (run_execute_swap_nonces st user pp now)).symm
  | auto caller tout amount now =>
    simp only [applyOp]
    exact le_of_eq (last_nonce_congr st _ p (run_auto_swap_nonces st caller tout amount now)).symm
  | callback protocol cb now =>
    simp only [applyOp]
    exact run_validate_callback_mono st protocol cb now p
  | update caller ns =>
    simp only [applyOp]
    exact le_of_eq (last_nonce_congr st _ p (run_update_settings_nonces st caller ns)).symm

/-- No sequence of external calls ever decreases a protocol's
last-consumed nonce. -/
lemma last_nonce_applyOps_mono (ops : List AmmOp) (st : AmmState) (p : Nat) :
    last_nonce st p ≤ last_nonce (applyOps st ops) p := by
  induction ops generalizing st with
  | nil => exact le_refl _
  | cons op rest ih =>
    exact le_trans (last_nonce_applyOp_mono st op p) (ih (applyOp st op))

/-! Claim theorems. -/

/-- C1: for every `amount_in > 0` and `0 <= slippage_tolerance_bps <= 10000`
that passes validation, `execute_swap` returns
`amount_out = floor(amount_in * (10000 - slippage_tolerance_bps) / 10000)`
in exact integer arithmetic; the result is always `>= 0` and strictly less
than `amount_in` whenever `slippage_tolerance_bps > 0`. -/
theorem execute_swap_output_formula (st : AmmState) (user : Nat) (p : SwapParams)
    (now : Nat) (out : Int) (st' : AmmState)
    (h : execute_swap st user p now = .ok (out, st'))
    (hpos : 0 < p.amount_in) (hs0 : 0 ≤ p.slippage_tolerance)
    (hs1 : p.slippage_tolerance ≤ 10000) :
    out = p.amount_in * (10000 - p.slippage_tolerance) / 10000 ∧
    0 ≤ out ∧ (0 < p.slippage_tolerance → out < p.amount_in) := by
  obtain ⟨hout, -, -, -, -, -⟩ := execute_swap_ok_state st user p now out st' h
  refine ⟨hout, ?_, ?_⟩
  · rw [hout]
    exact Int.ediv_nonneg (mul_nonneg (le_of_lt hpos) (by omega)) (by norm_num)
  · intro hs
    rw [hout]
    unfold amount_out_formula
    rw [Int.ediv_lt_iff_lt_mul (by norm_num)]
    exact mul_lt_mul_of_pos_left (by omega) hpos

/-- Witness for C1 at the test suite's own numbers:
`15000 * 9900 / 10000 = 14850`, nonnegative and below the input. -/
theorem execute_swap_output_formula_witness :
    (14850 : Int) = 15000 * (10000 - 100) / 10000 ∧
    (0 : Int) ≤ 14850 ∧ ((0 : Int) < 100 → (14850 : Int) < 15000) :=
  execute_swap_output_formula testState 9 testParams 0 14850
    { testState with history := [mk_swap_record 9 testParams 0 0] }
    rfl (by decide) (by decide) (by decide)

/-- C8: for a fixed `amount_in`, the `execute_swap` output is
non-increasing as `slippage_tolerance_bps` increases — any two successful
swaps of the same amount with `s1 <= s2` satisfy `out2 <= out1`. -/
theorem execute_swap_monotone_in_slippage (sta stb : AmmState) (u1 u2 : Nat)
    (p1 p2 : SwapParams) (n1 n2 : Nat) (out1 out2 : Int) (st1 st2 : AmmState)
    (hamt : p2.amount_in = p1.amount_in) (hpos : 0 < p1.amount_in)
    (hs : p1.slippage_tolerance ≤ p2.slippage_tolerance)
    (h1 : execute_swap sta u1 p1 n1 = .ok (out1, st1))
    (h2 : execute_swap stb u2 p2 n2 = .ok (out2, st2)) :
    out2 ≤ out1 := by
  obtain ⟨ho1, -, -, -, -, -⟩ := execute_swap_ok_state sta u1 p1 n1 out1 st1 h1
  obtain ⟨ho2, -, -, -, -, -⟩ := execute_swap_ok_state stb u2 p2 n2 out2 st2 h2
  rw [ho1, ho2]
  unfold amount_out_formula
  rw [hamt]
  apply Int.ediv_le_ediv (by norm_num)
  exact mul_le_mul_of_nonneg_left (by omega) (le_of_lt hpos)

/-- Witness for C8: at amount 15000, slippage 1000 bps yields 13500,
slippage 100 bps yields 14850, and indeed `13500 <= 14850`. -/
theorem execute_swap_monotone_in_slippage_witness : (13500 : Int) ≤ 14850 :=
  execute_swap_monotone_in_slippage testState testState 9 9 testParams testParamsHigh
    0 0 14850 13500
    { testState with history := [mk_swap_record 9 testParams 0 0] }
    { testState with history := [mk_swap_record 9 testParamsHigh 0 0] }
    (by decide) (by decide) (by decide) rfl rfl

/-- C2: a call to `execute_swap` or `validate_amm_callback` that fails any
validation check produces zero observable state changes — the post-call
state is exactly the pre-call state (in particular no history record is
appended and no nonce is advanced) — and a successful `execute_swap`
mutates nothing but the single appended history record. -/
theorem failed_validation_no_state_change (st : AmmState) (user : Nat) (p : SwapParams)
    (protocol : Nat) (cb : AmmCallbackData) (now now2 : Nat) (e e2 : AmmError) :
    (execute_swap st user p now = .error e →
      run_execute_swap st user p now = st) ∧
    (validate_amm_callback st protocol cb now2 = .error e2 →
      run_validate_callback st protocol cb now2 = st) ∧
    (∀ out st', execute_swap st user p now = .ok (out, st') →
      st'.nonces = st.nonces ∧ st'.settings = st.settings ∧
      st'.history = st.history ++ [mk_swap_record user p now st.history.length]) := by
  refine ⟨?_, ?_, ?_⟩
  · intro h
    unfold run_execute_swap
    rw [h]
  · intro h
    unfold run_validate_callback
    rw [h]
  · intro out st' h
    obtain ⟨-, hh, hn, hs, -, -⟩ := execute_swap_ok_state st user p now out st' h
    exact ⟨hn, hs, hh⟩

/-- Witness for C2: a paused swap and a spoofed-protocol callback both
fail and leave the state exactly unchanged. -/
theorem failed_validation_no_state_change_witness :
    run_execute_swap pausedState 9 testParams 0 = pausedState ∧
    run_validate_callback testState 99 testCallback 0 = testState :=
  ⟨(failed_validation_no_state_change pausedState 9 testParams 99 testCallback 0 0
      .SwapsPaused .UnknownProtocol).1 rfl,
   (failed_validation_no_state_change testState 9 testParams 99 testCallback 0 0
      .SwapsPaused .UnknownProtocol).2.1 rfl⟩

/-- Registry lookups ignore the nonce ledger. -/
lemma find_protocol_nonces (st : AmmState) (l : List (Nat × Nat)) (addr : Nat) :
    find_protocol { st with nonces := l } addr = find_protocol st addr := rfl

/-- C3: once `validate_amm_callback` succeeds for a protocol with nonce N,
replaying the same nonce N fails with `NonceReplay` while N+1 succeeds; a
failed validation never advances the ledger; and after any further
sequence of calls, no callback for that protocol with a nonce `<= N` is
ever accepted again. -/
theorem nonce_replay_protection (st : AmmState) (protocol : Nat) (cb : AmmCallbackData)
    (now : Nat) (st' : AmmState)
    (h : validate_amm_callback st protocol cb now = .ok st') :
    (∀ cb2 now2, cb2.nonce = cb.nonce → now2 ≤ cb2.deadline →
      validate_amm_callback st' protocol cb2 now2 = .error .NonceReplay) ∧
    (∀ cb3 now3, cb3.nonce = cb.nonce + 1 → now3 ≤ cb3.deadline →
      ∃ st3, validate_amm_callback st' protocol cb3 now3 = .ok st3) ∧
    (∀ ops cb4 now4 st4, cb4.nonce ≤ cb.nonce →
      validate_amm_callback (applyOps st' ops) protocol cb4 now4 ≠ .ok st4) ∧
    (∀ st5 cb5 now5 e, validate_amm_callback st5 protocol cb5 now5 = .error e →
      run_validate_callback st5 protocol cb5 now5 = st5) := by
  obtain ⟨hsome, hdl, hlt, rfl⟩ := (validate_ok_iff st protocol cb now st').mp h
  obtain ⟨cfg, hcfg⟩ := Option.isSome_iff_exists.mp hsome
  refine ⟨?_, ?_, ?_, ?_⟩
  · intro cb2 now2 hn2 hdl2
    simp only [validate_amm_callback, find_protocol_nonces, hcfg, last_nonce_cons_same]
    rw [if_neg (by omega), if_pos (by omega)]
  · intro cb3 now3 hn3 hdl3
    refine ⟨{ st with nonces := (protocol, cb3.nonce) :: (protocol, cb.nonce) :: st.nonces }, ?_⟩
    simp only [validate_amm_callback, find_protocol_nonces, hcfg, last_nonce_cons_same]
    rw [if_neg (by omega), if_neg (by omega)]
  · intro ops cb4 now4 st4 hle hok
    obtain ⟨-, -, hlt4, -⟩ :=
      (validate_ok_iff (applyOps { st with nonces := (protocol, cb.nonce) :: st.nonces } ops)
        protocol cb4 now4 st4).mp hok
    have hmono := last_nonce_applyOps_mono ops
      { st with nonces := (protocol, cb.nonce) :: st.nonces } protocol
    rw [last_nonce_cons_same] at hmono
    omega
  · intro st5 cb5 now5 e h5
    unfold run_validate_callback
    rw [h5]

/-- Witness for C3: after consuming nonce 1 on protocol 5, nonce 1 is
rejected with `NonceReplay` and nonce 2 is accepted. -/
theorem nonce_replay_protection_witness :
    validate_amm_callback { testState with nonces := [(5, 1)] } 5 testCallback 0
      = .error .NonceReplay ∧
    (∃ st3, validate_amm_callback { testState with nonces := [(5, 1)] } 5
      { testCallback with nonce := 2 } 0 = .ok st3) :=
  ⟨(nonce_replay_protection testState 5 testCallback 0 _ rfl).1 testCallback 0 rfl
      (by decide),
   (nonce_replay_protection testState 5 testCallback 0 _ rfl).2.1
      { testCallback with nonce := 2 } 0 rfl (by decide)⟩

/-- C4: for a swap request passing the earlier checks, `execute_swap`
succeeds when `slippage_tolerance_bps` equals `settings.max_slippage_bps`
exactly (inclusive upper bound, provided the later minimum-output check
also passes) and fails with `SlippageTooHigh` for every
`slippage_tolerance_bps` strictly greater than the maximum. -/
theorem slippage_boundary (st : AmmState) (user : Nat) (p : SwapParams) (now : Nat)
    (cfg : AmmProtocolConfig)
    (hen : st.settings.swap_enabled = true)
    (hfp : find_protocol st p.protocol = some cfg)
    (hcen : cfg.enabled = true)
    (hdl : now ≤ p.deadline)
    (hmin : cfg.min_swap_amount ≤ p.amount_in)
    (hmax : p.amount_in ≤ cfg.max_swap_amount)
    (hpair : pair_supported cfg p.token_in p.token_out = true) :
    (p.slippage_tolerance = st.settings.max_slippage →
      p.min_amount_out ≤ amount_out_formula p →
      execute_swap st user p now =
        .ok (amount_out_formula p,
          { st with history := st.history ++ [mk_swap_record user p now st.history.length] })) ∧
    (st.settings.max_slippage < p.slippage_tolerance →
      execute_swap st user p now = .error .SlippageTooHigh) := by
  constructor
  · intro hs hout
    rw [execute_swap_ok_iff]
    exact ⟨hen, cfg, hfp,
      (swap_check_none_iff st cfg p now).mpr ⟨hcen, hdl, hmin, hmax, hpair, by omega, hout⟩,
      rfl, rfl⟩
  · intro hs
    have hsc : swap_check st cfg p now = some .SlippageTooHigh := by
      unfold swap_check
      rw [if_neg (by simp [hcen]), if_neg (by omega), if_neg (by omega),
        if_neg (by simp [hpair]), if_pos hs]
    simp only [execute_swap, hen, if_true, hfp, hsc]

/-- Witness for C4: at max slippage (1000 bps) the swap succeeds with
output 13500; at 1001 bps it fails with `SlippageTooHigh`. -/
theorem slippage_boundary_witness :
    execute_swap testState 9 testParamsHigh 0 =
      .ok (13500, { testState with history := [mk_swap_record 9 testParamsHigh 0 0] }) ∧
    execute_swap testState 9 testParamsOver 0 = .error .SlippageTooHigh :=
  ⟨(slippage_boundary testState 9 testParamsHigh 0 testConfig rfl rfl rfl (by decide)
      (by decide) (by decide) (by decide)).1 (by decide) (by decide),
   (slippage_boundary testState 9 testParamsOver 0 testConfig rfl rfl rfl (by decide)
      (by decide) (by decide) (by decide)).2 (by decide)⟩

/-- C5: `auto_swap_for_collateral` with `amount = auto_swap_threshold`
succeeds (inclusive lower bound, provided the delegated router call's own
checks pass); with `amount = auto_swap_threshold - 1` (still positive) it
fails with `BelowLiquidationThreshold`; and a threshold change through the
settings store governs the very next call. -/
theorem auto_swap_threshold_boundary (st : AmmState) (caller : Nat) (tout : Option Nat)
    (now : Nat) :
    (0 < st.settings.auto_swap_threshold - 1 →
      auto_swap_for_collateral st caller tout (st.settings.auto_swap_threshold - 1) now =
        .error .BelowLiquidationThreshold) ∧
    (∀ cfg, 0 < st.settings.auto_swap_threshold →
      st.settings.swap_enabled = true →
      find_supporting st none tout = some cfg →
      find_protocol st cfg.protocol_address = some cfg →
      cfg.min_swap_amount ≤ st.settings.auto_swap_threshold →
      st.settings.auto_swap_threshold ≤ cfg.max_swap_amount →
      st.settings.default_slippage ≤ st.settings.max_slippage →
      1 ≤ amount_out_formula (auto_swap_params cfg tout st.settings.auto_swap_threshold st now) →
      ∃ out st', auto_swap_for_collateral st caller tout st.settings.auto_swap_threshold now =
        .ok (out, st')) ∧
    (∀ admin ns st', update_amm_settings st admin ns = .ok st' →
      ∀ a, 0 < a → a < ns.auto_swap_threshold →
        auto_swap_for_collateral st' caller tout a now = .error .BelowLiquidationThreshold) := by
  refine ⟨?_, ?_, ?_⟩
  · intro ht
    unfold auto_swap_for_collateral
    rw [if_neg (by omega), if_pos (by omega)]
  · intro cfg ht hen hfs hfp hminb hmaxb hds hout
    have hfs2 : st.protocols.find? (fun c => c.enabled && pair_supported c none tout)
        = some cfg := hfs
    have hfind := List.find?_some hfs2
    simp only [Bool.and_eq_true] at hfind
    refine ⟨amount_out_formula (auto_swap_params cfg tout st.settings.auto_swap_threshold st now),
      { st with history := st.history ++
          [mk_swap_record caller (auto_swap_params cfg tout st.settings.auto_swap_threshold st now)
            now st.history.length] }, ?_⟩
    unfold auto_swap_for_collateral
    rw [if_neg (by omega), if_neg (by omega), hfs]
    rw [execute_swap_ok_iff]
    exact ⟨hen, cfg, hfp,
      (swap_check_none_iff st cfg (auto_swap_params cfg tout st.settings.auto_swap_threshold st now)
        now).mpr
        ⟨hfind.1, Nat.le_add_right now swap_deadline_window, hminb, hmaxb, hfind.2, hds, hout⟩,
      rfl, rfl⟩
  · intro admin ns st' hupd a ha hlt
    have hsettings : st'.settings = ns := by
      rw [((update_ok_iff st admin ns st').mp hupd).2]
    unfold auto_swap_for_collateral
    rw [if_neg (by omega), if_pos (by rw [hsettings]; exact hlt)]

/-- Witness for C5: with threshold 10000, amount 9999 is rejected and
amount 10000 is accepted; after the admin lowers the threshold to 5000,
amount 4999 is rejected against the new threshold. -/
theorem auto_swap_threshold_boundary_witness :
    auto_swap_for_collateral testState 9 (some 7) 9999 0 = .error .BelowLiquidationThreshold ∧
    (∃ out st', auto_swap_for_collateral testState 9 (some 7) 10000 0 = .ok (out, st')) ∧
    auto_swap_for_collateral { testState with settings := loweredSettings } 9 (some 7) 4999 0 =
      .error .BelowLiquidationThreshold :=
  ⟨(auto_swap_threshold_boundary testState 9 (some 7) 0).1 (by decide),
   (auto_swap_threshold_boundary testState 9 (some 7) 0).2.1 testConfig (by decide) rfl rfl rfl
     (by decide) (by decide) (by decide) (by decide),
   (auto_swap_threshold_boundary testState 9 (some 7) 0).2.2 1 loweredSettings
     { testState with settings := loweredSettings } rfl 4999 (by decide) (by decide)⟩

/-- C6: a non-admin caller cannot update the global AMM settings — the
call fails with `Unauthorized` and leaves the state unchanged; the admin
replaces the whole record atomically and every subsequent read observes
the new values. -/
theorem update_settings_admin_only (st : AmmState) (caller : Nat) (ns : AmmSettings) :
    (caller ≠ st.admin →
      update_amm_settings st caller ns = .error .Unauthorized ∧
      run_update_settings st caller ns = st) ∧
    (caller = st.admin →
      update_amm_settings st caller ns = .ok { st with settings := ns } ∧
      get_amm_settings (run_update_settings st caller ns) = ns) := by
  constructor
  · intro h
    have he : update_amm_settings st caller ns = .error .Unauthorized := by
      unfold update_amm_settings
      rw [if_neg h]
    refine ⟨he, ?_⟩
    unfold run_update_settings
    rw [he]
  · intro h
    have ho : update_amm_settings st caller ns = .ok { st with settings := ns } := by
      unfold update_amm_settings
      rw [if_pos h]
    refine ⟨ho, ?_⟩
    unfold run_update_settings
    rw [ho]
    rfl

/-- Witness for C6: caller 2 (not the admin, who is 1) is rejected with
no state change; the admin's update is observed by the next read. -/
theorem update_settings_admin_only_witness :
    (update_amm_settings testState 2 loweredSettings = .error .Unauthorized ∧
      run_update_settings testState 2 loweredSettings = testState) ∧
    (update_amm_settings testState 1 loweredSettings =
        .ok { testState with settings := loweredSettings } ∧
      get_amm_settings (run_update_settings testState 1 loweredSettings) = loweredSettings) :=
  ⟨(update_settings_admin_only testState 2 loweredSettings).1 (by decide),
   (update_settings_admin_only testState 1 loweredSettings).2 rfl⟩

/-- C7: querying the swap history for a user returns only that user's
records, in insertion order (a sublist of the full history), truncated to
the limit; and two distinct users who each execute one swap from an empty
history end with exactly one record each. -/
theorem swap_history_per_user (st : AmmState) (u : Nat) (limit : Nat) :
    (∀ r, r ∈ get_swap_history st (some u) limit → r.user = u) ∧
    List.Sublist (get_swap_history st (some u) limit) st.history ∧
    (get_swap_history st (some u) limit).length ≤ limit ∧
    (∀ a b pa pb n1 n2 oa ob sta stb,
      st.history = [] → a ≠ b → 1 ≤ limit →
      execute_swap st a pa n1 = .ok (oa, sta) →
      execute_swap sta b pb n2 = .ok (ob, stb) →
      (get_swap_history stb (some a) limit).length = 1 ∧
      (get_swap_history stb (some b) limit).length = 1) := by
  refine ⟨?_, ?_, ?_, ?_⟩
  · intro r hr
    simp only [get_swap_history] at hr
    have hmem : r ∈ st.history.filter (fun r => r.user == u) :=
      (List.take_sublist limit _).mem hr
    have := (List.mem_filter.mp hmem).2
    simpa using this
  · exact (List.take_sublist limit _).trans (List.filter_sublist st.history)
  · exact List.length_take_le limit _
  · intro a b pa pb n1 n2 oa ob sta stb hemp hab hlim h1 h2
    obtain ⟨-, hha, -, -, -, -⟩ := execute_swap_ok_state st a pa n1 oa sta h1
    obtain ⟨-, hhb, -, -, -, -⟩ := execute_swap_ok_state sta b pb n2 ob stb h2
    rw [hemp] at hha
    simp only [List.nil_append] at hha
    rw [hha] at hhb
    constructor
    · simp only [get_swap_history, hhb, hha]
      rw [List.filter_append]
      simp [mk_swap_record, hab, Ne.symm hab, List.length_take, hlim]
    · simp only [get_swap_history, hhb, hha]
      rw [List.filter_append]
      simp [mk_swap_record, hab, Ne.symm hab, List.length_take, hlim]

/-- Witness for C7: users 9 and 8 each execute one swap; each sees exactly
one record in their own history view. -/
theorem swap_history_per_user_witness :
    (get_swap_history { testState with history :=
        [mk_swap_record 9 testParams 0 0, mk_swap_record 8 testParamsB 0 1] } (some 9) 10).length
      = 1 ∧
    (get_swap_history { testState with history :=
        [mk_swap_record 9 testParams 0 0, mk_swap_record 8 testParamsB 0 1] } (some 8) 10).length
      = 1 :=
  (swap_history_per_user testState 9 10).2.2.2 9 8 testParams testParamsB 0 0 14850 19800
    { testState with history := [mk_swap_record 9 testParams 0 0] }
    { testState with history := [mk_swap_record 9 testParams 0 0, mk_swap_record 8 testParamsB 0 1] }
    rfl (by decide) (by decide) rfl rfl

/-- C9: the public `liquidate` entry point never returns an error value —
whenever the internal liquidation logic reports an error the call panics
with "Liquidation error", and a normal return can only come from an
internal success; by contrast the other lending entry points (for example
`deposit_collateral`) surface the internal error as a typed `Result`. -/
theorem liquidate_traps_on_error (ε : Type) (inner : Except ε (Int × Int × Int)) :
    (∀ e, inner = .error e → HelloContract.liquidate inner = .panicked "Liquidation error") ∧
    (∀ v, HelloContract.liquidate inner = .ret v → inner = .ok v) ∧
    (∀ (δ : Type) (e2 : δ), HelloContract.deposit_collateral (Except.error e2)
      = (Except.error e2 : Except δ Int)) := by
  refine ⟨?_, ?_, ?_⟩
  · intro e he
    rw [he]
    rfl
  · intro v hv
    cases inner with
    | ok a =>
      have : a = v := by
        have h := hv
        simp only [HelloContract.liquidate, expectOk] at h
        injection h
      rw [this]
    | error e =>
      exact ContractOutcome.noConfusion hv
  · intro δ e2
    rfl

/-- Witness for C9: a failing internal liquidation panics with the fixed
message, while a failing internal deposit surfaces its error. -/
theorem liquidate_traps_on_error_witness :
    HelloContract.liquidate (Except.error () : Except Unit (Int × Int × Int))
      = .panicked "Liquidation error" ∧
    HelloContract.deposit_collateral (Except.error ()) = (Except.error () : Except Unit Int) :=
  ⟨(liquidate_traps_on_error Unit (Except.error ())).1 () rfl,
   (liquidate_traps_on_error Unit (Except.error ())).2.2 Unit ()⟩

/-- C10: `get_borrow_rate`, `get_supply_rate` and `get_utilization` are
total and never report failure — any internal error becomes the returned
value 0, indistinguishable from a genuine zero rate or utilization. -/
theorem rates_total_error_to_zero (ε : Type) (r : Except ε Int) (e : ε) :
    (r = .error e →
      HelloContract.get_borrow_rate r = 0 ∧
      HelloContract.get_supply_rate r = 0 ∧
      HelloContract.get_utilization r = 0) ∧
    HelloContract.get_borrow_rate (Except.error e : Except ε Int)
      = HelloContract.get_borrow_rate (Except.ok (0 : Int) : Except ε Int) ∧
    HelloContract.get_supply_rate (Except.error e : Except ε Int)
      = HelloContract.get_supply_rate (Except.ok (0 : Int) : Except ε Int) ∧
    HelloContract.get_utilization (Except.error e : Except ε Int)
      = HelloContract.get_utilization (Except.ok (0 : Int) : Except ε Int) := by
  refine ⟨?_, rfl, rfl, rfl⟩
  intro hr
  rw [hr]
  exact ⟨rfl, rfl, rfl⟩

/-- Witness for C10: with a failing internal computation, all three
getters return 0. -/
theorem rates_total_error_to_zero_witness :
    HelloContract.get_borrow_rate (Except.error () : Except Unit Int) = 0 ∧
    HelloContract.get_supply_rate (Except.error () : Except Unit Int) = 0 ∧
    HelloContract.get_utilization (Except.error () : Except Unit Int) = 0 :=
  (rates_total_error_to_zero Unit (Except.error ()) ()).1 rfl
